import Mathlib

/-!
# Verification of the `player` package (go-ll-player)

Shallow embedding of `src/player.go`. Pointers to `playerNode` are modelled
as indices into an arena (`Array PlayerNode`); a nil pointer is `Option.none`.
`time.Duration` (an `int64` of nanoseconds) is modelled as `Int`; no arithmetic
here approaches the 64-bit bounds, so overflow wrapping is omitted.
A nil-pointer dereference (a Go panic) is modelled as `Option.none` in the
result of the operation that performs it.
-/

namespace Player

/-- `type Song struct { Name string; Duration time.Duration }` -/
structure Song where
  name : String
  duration : Int
  deriving DecidableEq, Repr

/-- `time.Second` in nanoseconds. -/
def second : Int := 1000000000

/-- `type playerNode struct { song *Song; next, prev *playerNode }`.
Pointers become arena indices. -/
structure PlayerNode where
  song : Song
  next : Option Nat
  prev : Option Nat
  deriving DecidableEq, Repr

/-- `type playerImpl struct { head, tail, current *playerNode; isPlaying bool;
playedTime time.Duration }` plus the node arena that holds what the Go heap
holds.  The mutex and the channels carry no state that the claims are about:
channel sends are modelled as the events they deliver (see `TimerEvent`). -/
structure PlayerImpl where
  nodes : Array PlayerNode
  head : Option Nat
  tail : Option Nat
  current : Option Nat
  isPlaying : Bool
  playedTime : Int
  deriving DecidableEq, Repr

/-- The state `NewPlayer` starts from (zero value of the struct fields). -/
def emptyPlayer : PlayerImpl :=
  { nodes := #[], head := none, tail := none, current := none,
    isPlaying := false, playedTime := 0 }

/-- `NewSong(name string, d time.Duration) (Song, error)`. -/
def NewSong (name : String) (d : Int) : Except String Song :=
  if name = "" then .error "song name is empty"
  else if d < second then .error "song duration is less than 1 sec"
  else .ok { name := name, duration := d }

/-- The state mutation of `AddSong`: allocate a node, then either initialise
`head`/`tail`/`current` (empty case) or link it after the tail.
`none` models the nil dereference of `p.tail` when `head != nil, tail == nil`
(unreachable from reachable states). -/
def addSongCore (p : PlayerImpl) (song : Song) : Option PlayerImpl :=
  let idx := p.nodes.size
  if p.head = none then
    some { p with
      nodes := p.nodes.push { song := song, next := none, prev := none },
      head := some idx, tail := some idx, current := some idx }
  else
    match p.tail with
    | none => none
    | some t =>
      if h : t < p.nodes.size then
        let tailNode := p.nodes[t]
        some { p with
          nodes := (p.nodes.set ⟨t, h⟩ { tailNode with next := some idx }).push
            { song := song, next := none, prev := some t },
          tail := some idx }
      else none

/-- `AddSong(ctx, song) error`: performs `addSongCore` and returns its Go
`error` result, which is `nil` on every path of the Go body. -/
def AddSong (p : PlayerImpl) (song : Song) : Option (Except String PlayerImpl) :=
  (addSongCore p song).map .ok

/-- The seeding loop of `NewPlayer`: `for i, s := range songs { if err :=
pl.AddSong(...); err != nil { return nil, fmt.Errorf("add songs[%d] song: %v", i, err) } }`. -/
def newPlayerLoop (i : Nat) (songs : List Song) (p : PlayerImpl) :
    Option (Except String PlayerImpl) :=
  match songs with
  | [] => some (.ok p)
  | s :: rest =>
    match AddSong p s with
    | none => none
    | some (.error e) =>
      some (.error ("add songs[" ++ toString i ++ "] song: " ++ e))
    | some (.ok p') => newPlayerLoop (i + 1) rest p'

/-- `NewPlayer(songs ...Song) (*playerImpl, error)`. -/
def NewPlayer (songs : List Song) : Option (Except String PlayerImpl) :=
  newPlayerLoop 0 songs emptyPlayer

/- `Play` and `Next` are mutually recursive in the Go source (`Play` delegates
to `Next` when `p.playedTime > p.current.song.Duration`, and `Next` ends with
`return p.Play(ctx)`).  With a negative duration this recursion does not
terminate in Go either (the cursor clamps at the tail and the guard stays
true), so the embedding is fuel-indexed; `none` is fuel exhaustion or a nil
dereference.  Starting the goroutine timer is modelled by its synchronous
effect, `isPlaying := true`; the goroutine itself is `timerStep` below. -/
mutual

/-- `Play(ctx)`. -/

def playF : Nat → PlayerImpl → Option PlayerImpl
  | 0, _ => none
  | fuel + 1, p =>
    match p.current with
    | none => some p
    | some i =>
      if p.isPlaying then some p
      else
        match p.nodes[i]? with
        | none => none
        | some nd =>
          if nd.song.duration < p.playedTime then nextF fuel p
          else some { p with isPlaying := true }

def nextF : Nat → PlayerImpl → Option PlayerImpl
  | 0, _ => none
  | fuel + 1, p =>
    let p1 := { p with isPlaying := false, playedTime := 0 }
    match p1.current with
    | none => none
    | some i =>
      match p1.nodes[i]? with
      | none => none
      | some nd =>
        let cur := match nd.next with
          | none => p1.tail
          | some j => some j
        playF fuel { p1 with current := cur }

end

/-- `Prev(ctx)`: like `Next` but via `prev`, clamping to `head`. -/
def prevF : Nat → PlayerImpl → Option PlayerImpl
  | 0, _ => none
  | fuel + 1, p =>
    let p1 := { p with isPlaying := false, playedTime := 0 }
    match p1.current with
    | none => none
    | some i =>
      match p1.nodes[i]? with
      | none => none
      | some nd =>
        let cur := match nd.prev with
          | none => p1.head
          | some j => some j
        playF fuel { p1 with current := cur }

/-- The four events the goroutine in `Play` races in its `select`.  `pause`
carries `time.Now()` at the moment of the signal, matching
`p.playedTime += time.Since(startPlaying)`. -/
inductive TimerEvent where
  | ctxDone
  | stop
  | pause (now : Int)
  | expiry
  deriving DecidableEq, Repr

/-- Outcome of one `select` iteration of the goroutine: either it `return`s
or it falls through to the next loop iteration. -/
inductive TimerResult where
  | terminated (p : PlayerImpl)
  | looping (p : PlayerImpl)
  deriving DecidableEq, Repr

/-- One iteration of the goroutine loop in `Play`, for a goroutine started at
timestamp `start`.  `none` models the nil dereference of `p.current` in the
expiry branch. -/
def timerStep (start : Int) (p : PlayerImpl) : TimerEvent → Option TimerResult
  | .ctxDone => some (.terminated { p with isPlaying := false, playedTime := 0 })
  | .stop => some (.terminated { p with isPlaying := false, playedTime := 0 })
  | .pause now =>
    some (.terminated
      { p with isPlaying := false, playedTime := p.playedTime + (now - start) })
  | .expiry =>
    match p.current with
    | none => none
    | some i =>
      match p.nodes[i]? with
      | none => none
      | some nd =>
        match nd.next with
        | none =>
          some (.terminated
            { p with playedTime := 0, isPlaying := false, current := p.head })
        | some j =>
          some (.looping { p with playedTime := 0, current := some j })

/-- The songs stored in the arena, in insertion order. -/
def songsOf (p : PlayerImpl) : List Song := p.nodes.toList.map (·.song)

/-- Invariant of the doubly-linked chain built by `AddSong`: since nodes are
only appended, the arena always holds the chain in insertion order, each node
linked to its neighbours, `head` at index `0` and `tail` at the last index. -/
def chainOk (p : PlayerImpl) : Prop :=
  (∀ i, (h : i < p.nodes.size) →
    (p.nodes[i]).prev = (if i = 0 then none else some (i - 1)) ∧
    (p.nodes[i]).next = (if i + 1 = p.nodes.size then none else some (i + 1))) ∧
  p.head = (if p.nodes.size = 0 then none else some 0) ∧
  p.tail = (if p.nodes.size = 0 then none else some (p.nodes.size - 1))

instance (p : PlayerImpl) : Decidable (chainOk p) := by
  unfold chainOk; infer_instance

/-- Fuel-bounded forward traversal along `next` links (as the tests walk
`curr = curr.next`). -/
def fwd (p : PlayerImpl) : Nat → Option Nat → List Song
  | 0, _ => []
  | _ + 1, none => []
  | fuel + 1, some i =>
    match p.nodes[i]? with
    | none => []
    | some nd => nd.song :: fwd p fuel nd.next

/-- Fuel-bounded backward traversal along `prev` links. -/
def bwd (p : PlayerImpl) : Nat → Option Nat → List Song
  | 0, _ => []
  | _ + 1, none => []
  | fuel + 1, some i =>
    match p.nodes[i]? with
    | none => []
    | some nd => nd.song :: bwd p fuel nd.prev

/-- A valid one-second song, for concrete instantiations. -/
def songA : Song := { name := "a", duration := second }

/-- A second valid one-second song. -/
def songB : Song := { name := "b", duration := second }

/-- The two-song player `NewPlayer(songA, songB)` builds, written out. -/
def samplePlayer2 : PlayerImpl :=
  { nodes := #[{ song := songA, next := some 1, prev := none },
               { song := songB, next := none, prev := some 0 }],
    head := some 0, tail := some 1, current := some 0,
    isPlaying := false, playedTime := 0 }

/-- `samplePlayer2` paused with exactly the whole first song accumulated
(`playedTime` equal to the current duration). -/
def sampleAtFull : PlayerImpl := { samplePlayer2 with playedTime := second }

/-- `samplePlayer2` with more than the duration of the first song accumulated. -/
def samplePastFull : PlayerImpl :=
  { samplePlayer2 with playedTime := 2 * second }

/-- `samplePlayer2` with the cursor on the last song. -/
def sampleAtTail : PlayerImpl := { samplePlayer2 with current := some 1 }

theorem list_set_self {α : Type} (l : List α) (i : Nat) (h : i < l.length) :
    l.set i l[i] = l := by
  apply List.ext_getElem
  · simp
  · intro j h1 h2
    rw [List.getElem_set]
    split
    · subst j; rfl
    · rfl

/-- `AddSong` on a well-formed chain: it succeeds, appends the song at the
end, preserves the chain invariant, and touches no playback state; the cursor
is initialised only when the playlist was empty. -/
theorem addSongCore_spec (p : PlayerImpl) (s : Song) (hc : chainOk p) :
    ∃ p', addSongCore p s = some p' ∧ chainOk p' ∧
      songsOf p' = songsOf p ++ [s] ∧
      p'.nodes.size = p.nodes.size + 1 ∧
      p'.current = (if p.nodes.size = 0 then some 0 else p.current) ∧
      p'.head = some 0 ∧ p'.tail = some p.nodes.size ∧
      (∀ hlt : p.nodes.size < p'.nodes.size,
        (p'.nodes[p.nodes.size]).song = s) ∧
      (∀ i, (h : i < p.nodes.size) → (h2 : i < p'.nodes.size) →
        (p'.nodes[i]).song = (p.nodes[i]).song) ∧
      p'.isPlaying = p.isPlaying ∧ p'.playedTime = p.playedTime := by
  obtain ⟨hlinks, hhead, htail⟩ := hc
  by_cases h0 : p.nodes.size = 0
  · have hh : p.head = none := by rw [hhead]; simp [h0]
    have heq : addSongCore p s = some { p with
        nodes := p.nodes.push { song := s, next := none, prev := none },
        head := some p.nodes.size, tail := some p.nodes.size,
        current := some p.nodes.size } := by
      simp [addSongCore, hh]
    refine ⟨_, heq, ?_, ?_, ?_, ?_, ?_, ?_, ?_, ?_, ?_, ?_⟩
    · refine ⟨?_, ?_, ?_⟩
      · intro i h
        simp only [Array.size_push, h0] at h
        have hi : i = 0 := by omega
        subst hi
        constructor
        · simp [Array.getElem_push, h0]
        · simp [Array.getElem_push, h0]
      · simp [Array.size_push, h0]
      · simp [Array.size_push, h0]
    · simp [songsOf, Array.push_toList]
    · simp
    · simp [h0]
    · simp [h0]
    · rfl
    · intro hlt
      simp [Array.getElem_push_eq]
    · intro i h h2
      omega
    · rfl
    · rfl
  · have hh : p.head = some 0 := by rw [hhead]; simp [h0]
    have hhne : ¬ p.head = none := by simp [hh]
    have ht : p.tail = some (p.nodes.size - 1) := by rw [htail]; simp [h0]
    have htlt : p.nodes.size - 1 < p.nodes.size := by omega
    have heq : addSongCore p s = some { p with
        nodes := (p.nodes.set ⟨p.nodes.size - 1, htlt⟩
          { p.nodes[p.nodes.size - 1] with next := some p.nodes.size }).push
          { song := s, next := none, prev := some (p.nodes.size - 1) },
        tail := some p.nodes.size } := by
      simp only [addSongCore, hhne, if_false, ht]
      rw [dif_pos htlt]
    refine ⟨_, heq, ?_, ?_, ?_, ?_, ?_, ?_, ?_, ?_, ?_, ?_⟩
    · refine ⟨?_, ?_, ?_⟩
      · intro i h
        simp only [Array.size_push, Array.size_set] at h ⊢
        by_cases hlast : i = p.nodes.size
        · subst hlast
          rw [Array.getElem_push, dif_neg (by simp)]
          constructor
          · simp [h0]
          · simp
        · have hi : i < p.nodes.size := by omega
          have hset : i < (p.nodes.set ⟨p.nodes.size - 1, htlt⟩
              { p.nodes[p.nodes.size - 1] with next := some p.nodes.size }).size := by
            simpa using hi
          rw [Array.getElem_push, dif_pos hset]
          by_cases htl : i = p.nodes.size - 1
          · subst htl
            rw [Array.getElem_set_eq _ _ _ rfl]
            obtain ⟨hp, _⟩ := hlinks (p.nodes.size - 1) htlt
            have hsucc : p.nodes.size - 1 + 1 = p.nodes.size := by omega
            constructor
            · exact hp
            · rw [hsucc, if_neg (by omega)]
          · rw [Array.getElem_set_ne _ _ _ _ (by simpa using (Ne.symm htl))]
            obtain ⟨hp, hn⟩ := hlinks i hi
            constructor
            · exact hp
            · rw [hn]
              have h1 : ¬ i + 1 = p.nodes.size := by omega
              have h2 : ¬ i + 1 = p.nodes.size + 1 := by omega
              simp [h1, h2]
      · simpa [Array.size_push, Array.size_set] using hh
      · simp [Array.size_push, Array.size_set]
    · simp only [songsOf, Array.push_toList, Array.toList_set, List.map_append,
        List.map_set, List.map_cons, List.map_nil]
      congr 1
      have : p.nodes.size - 1 < (p.nodes.toList.map (·.song)).length := by
        simpa using htlt
      have hget : (p.nodes.toList.map (·.song))[p.nodes.size - 1] =
          p.nodes[p.nodes.size - 1].song := by
        simp
      rw [← hget]
      exact list_set_self _ _ this
    · simp
    · simp [h0]
    · simpa using hh
    · simp
    · intro hlt
      rw [Array.getElem_push, dif_neg (by simp)]
    · intro i h h2
      rw [Array.getElem_push, dif_pos (by simpa using h)]
      by_cases htl : i = p.nodes.size - 1
      · subst htl
        rw [Array.getElem_set_eq _ _ _ rfl]
      · rw [Array.getElem_set_ne _ _ _ _ (by simpa using (Ne.symm htl))]
    · rfl
    · rfl

/-- The seeding loop of `NewPlayer` always succeeds (the `error` branch is
dead since `AddSong` returns `nil` on every path), appends the songs in order,
preserves the chain invariant, and sets the cursor to the first node exactly
when it starts from an empty playlist. -/
theorem newPlayerLoop_spec :
    ∀ (songs : List Song) (i : Nat) (p0 : PlayerImpl), chainOk p0 →
    ∃ p, newPlayerLoop i songs p0 = some (.ok p) ∧ chainOk p ∧
      songsOf p = songsOf p0 ++ songs ∧
      p.current = (if p0.nodes.size = 0 ∧ songs ≠ [] then some 0
        else p0.current) ∧
      p.isPlaying = p0.isPlaying ∧ p.playedTime = p0.playedTime := by
  intro songs
  induction songs with
  | nil =>
    intro i p0 hc
    exact ⟨p0, rfl, hc, by simp, by simp, rfl, rfl⟩
  | cons s rest ih =>
    intro i p0 hc
    obtain ⟨p1, heq, hc1, hsongs1, hsz1, hcur1, _, _, _, _, hplay1, htime1⟩ :=
      addSongCore_spec p0 s hc
    obtain ⟨p, hloop, hcp, hsongs, hcur, hplay, htime⟩ := ih (i + 1) p1 hc1
    refine ⟨p, ?_, hcp, ?_, ?_, ?_, ?_⟩
    · simp only [newPlayerLoop, AddSong, heq, Option.map_some]
      exact hloop
    · rw [hsongs, hsongs1, List.append_assoc]
      rfl
    · rw [hcur, hsz1]
      by_cases h0 : p0.nodes.size = 0
      · simp [h0, hcur1]
      · simp [h0, hcur1]
    · rw [hplay, hplay1]
    · rw [htime, htime1]

/-- On a well-formed chain, forward traversal from index `i` (with enough
fuel) lists the songs from `i` on. -/
theorem fwd_eq (p : PlayerImpl) (hc : chainOk p) :
    ∀ (fuel i : Nat), i < p.nodes.size → p.nodes.size ≤ i + fuel →
    fwd p fuel (some i) = (songsOf p).drop i := by
  obtain ⟨hlinks, _, _⟩ := hc
  intro fuel
  induction fuel with
  | zero => intro i h1 h2; omega
  | succ fuel ih =>
    intro i h1 h2
    have hget : p.nodes[i]? = some p.nodes[i] := Array.getElem?_eq_getElem h1
    obtain ⟨_, hn⟩ := hlinks i h1
    have hdrop : (songsOf p).drop i = p.nodes[i].song :: (songsOf p).drop (i + 1) := by
      have hl : i < (songsOf p).length := by simpa [songsOf] using h1
      rw [List.drop_eq_getElem_cons hl]
      simp [songsOf]
    by_cases hend : i + 1 = p.nodes.size
    · have hnext : p.nodes[i].next = none := by rw [hn, if_pos hend]
      have hdropnil : (songsOf p).drop (i + 1) = [] := by
        apply List.drop_eq_nil_of_le
        simp [songsOf, hend]
      rw [fwd, hget]
      simp only [hnext, hdrop, hdropnil]
      cases fuel <;> rfl
    · have hnext : p.nodes[i].next = some (i + 1) := by rw [hn, if_neg hend]
      rw [fwd, hget]
      simp only [hnext, hdrop]
      rw [ih (i + 1) (by omega) (by omega)]

/-- On a well-formed chain, backward traversal from index `i` (with enough
fuel) lists the songs up to `i`, reversed. -/
theorem bwd_eq (p : PlayerImpl) (hc : chainOk p) :
    ∀ (fuel i : Nat), i < p.nodes.size → i + 1 ≤ fuel →
    bwd p fuel (some i) = ((songsOf p).take (i + 1)).reverse := by
  obtain ⟨hlinks, _, _⟩ := hc
  intro fuel
  induction fuel with
  | zero => intro i h1 h2; omega
  | succ fuel ih =>
    intro i h1 h2
    have hget : p.nodes[i]? = some p.nodes[i] := Array.getElem?_eq_getElem h1
    obtain ⟨hp, _⟩ := hlinks i h1
    have hl : i < (songsOf p).length := by simpa [songsOf] using h1
    have htake : ((songsOf p).take (i + 1)).reverse =
        (songsOf p)[i] :: ((songsOf p).take i).reverse := by
      rw [List.take_succ]
      have : (songsOf p)[i]? = some (songsOf p)[i] := List.getElem?_eq_getElem hl
      rw [this]
      simp
    have hsong : (songsOf p)[i] = p.nodes[i].song := by simp [songsOf]
    by_cases h0 : i = 0
    · subst h0
      have hprev : p.nodes[0].prev = none := by rw [hp, if_pos rfl]
      rw [bwd, hget]
      simp only [hprev, htake, hsong]
      simp
      cases fuel <;> rfl
    · have hprev : p.nodes[i].prev = some (i - 1) := by rw [hp, if_neg h0]
      rw [bwd, hget]
      simp only [hprev, htake, hsong]
      rw [ih (i - 1) (by omega) (by omega)]
      have : i - 1 + 1 = i := by omega
      rw [this]

/-- C2: whenever the active timer process is interrupted, external
cancellation and the internal stop signal set `isPlaying` to `false` and
reset `elapsed` (`playedTime`) to zero, discarding progress; a pause signal
sets `isPlaying` to `false` and adds the time since the start timestamp to
`elapsed`; in every interruption case the timer process terminates. -/
theorem C2_timer_interruption (start now : Int) (p : PlayerImpl) :
    timerStep start p .ctxDone =
      some (.terminated { p with isPlaying := false, playedTime := 0 }) ∧
    timerStep start p .stop =
      some (.terminated { p with isPlaying := false, playedTime := 0 }) ∧
    timerStep start p (.pause now) =
      some (.terminated { p with
        isPlaying := false,
        playedTime := p.playedTime + (now - start) }) :=
  ⟨rfl, rfl, rfl⟩

/-- C3: on natural expiry the timer resets `elapsed` to zero; if the cursor
has no next node it stops playback and resets the cursor to `head` without
continuing, otherwise it advances the cursor to the next node and loops with
zero accumulated elapsed. -/
theorem C3_natural_expiry (start : Int) (p : PlayerImpl) (i : Nat)
    (nd : PlayerNode) (hcur : p.current = some i)
    (hnd : p.nodes[i]? = some nd) :
    (nd.next = none → timerStep start p .expiry =
      some (.terminated
        { p with playedTime := 0, isPlaying := false, current := p.head })) ∧
    (∀ j, nd.next = some j → timerStep start p .expiry =
      some (.looping { p with playedTime := 0, current := some j })) := by
  constructor
  · intro hn
    simp [timerStep, hcur, hnd, hn]
  · intro j hn
    simp [timerStep, hcur, hnd, hn]

theorem C3_witness :
    timerStep 0 sampleAtTail .expiry =
      some (.terminated { sampleAtTail with
        playedTime := 0, isPlaying := false, current := sampleAtTail.head }) ∧
    timerStep 0 samplePlayer2 .expiry =
      some (.looping { samplePlayer2 with
        playedTime := 0, current := some 1 }) :=
  ⟨(C3_natural_expiry 0 sampleAtTail 1
      { song := songB, next := none, prev := some 0 } rfl rfl).1 rfl,
   (C3_natural_expiry 0 samplePlayer2 0
      { song := songA, next := some 1, prev := none } rfl rfl).2 1 rfl⟩

/-- C6: `NewSong` errors exactly when the name is empty or the duration is
under one second, and otherwise returns the song with that name and
duration. -/
theorem C6_newSong_validation (name : String) (d : Int) :
    ((∃ e, NewSong name d = .error e) ↔ name = "" ∨ d < second) ∧
    (¬(name = "" ∨ d < second) →
      NewSong name d = .ok { name := name, duration := d }) := by
  unfold NewSong
  by_cases h1 : name = ""
  · simp [h1]
  · by_cases h2 : d < second
    · simp [h1, h2]
    · simp [h1, h2]

theorem C6_witness :
    NewSong "a" second = .ok { name := "a", duration := second } :=
  (C6_newSong_validation "a" second).2 (by decide)

/-- C9: `Play` is a no-op when the playlist is empty (`current = nil`) or
playback is already active: it returns success with the whole state
unchanged, so on an empty playlist `isPlaying` stays `false`. -/
theorem C9_play_noop (fuel : Nat) (p : PlayerImpl)
    (h : p.current = none ∨ p.isPlaying = true) :
    playF (fuel + 1) p = some p := by
  rcases h with h | h
  · simp [playF, h]
  · rcases hc : p.current with _ | i
    · simp [playF, hc]
    · simp [playF, hc, h]

theorem C9_witness :
    emptyPlayer.current = none ∧
    playF 1 emptyPlayer = some emptyPlayer ∧
    emptyPlayer.isPlaying = false ∧
    playF 1 { samplePlayer2 with isPlaying := true } =
      some { samplePlayer2 with isPlaying := true } :=
  ⟨rfl, C9_play_noop 0 emptyPlayer (Or.inl rfl), rfl,
   C9_play_noop 0 { samplePlayer2 with isPlaying := true } (Or.inr rfl)⟩

/-- C10: on an empty playlist (`current = nil`), `Next` reads
`p.current.next` and `Prev` reads `p.current.prev`, a nil dereference: in the
total embedding both operations hit the error branch (`none`), so neither is
defined on an empty playlist. -/
theorem C10_empty_deref (fuel : Nat) (p : PlayerImpl)
    (h : p.current = none) :
    nextF (fuel + 1) p = none ∧ prevF (fuel + 1) p = none := by
  constructor
  · simp [nextF, h]
  · simp [prevF, h]

theorem C10_witness :
    nextF 1 emptyPlayer = none ∧ prevF 1 emptyPlayer = none :=
  C10_empty_deref 0 emptyPlayer rfl

/-- C1 counterexample: with `elapsed` exactly equal to the duration of
the current track (and playback idle on a non-empty playlist), `Play` does NOT
delegate to `Next`: it starts a timer (`isPlaying := true`, cursor and
`playedTime` untouched), because the guard is the strict
`p.playedTime > p.current.song.Duration`. -/
theorem C1_counterexample :
    sampleAtFull.isPlaying = false ∧
    sampleAtFull.current = some 0 ∧
    (sampleAtFull.nodes[0]?).map (fun nd => nd.song.duration) =
      some sampleAtFull.playedTime ∧
    playF 6 sampleAtFull = some { sampleAtFull with isPlaying := true } ∧
    nextF 6 sampleAtFull ≠ some { sampleAtFull with isPlaying := true } :=
  ⟨rfl, rfl, rfl, rfl, by decide⟩

/-- C1 (amended): for an idle controller with a current track, `Play`
delegates to `Next` exactly when the accumulated `elapsed` STRICTLY exceeds
the duration of the current track; when `elapsed` is less than or equal to the
duration (equality included) it instead starts a timer. -/
theorem C1_play_catchup (fuel : Nat) (p : PlayerImpl) (i : Nat)
    (nd : PlayerNode) (hcur : p.current = some i)
    (hnd : p.nodes[i]? = some nd) (hnp : p.isPlaying = false) :
    (nd.song.duration < p.playedTime →
      playF (fuel + 1) p = nextF fuel p) ∧
    (p.playedTime ≤ nd.song.duration →
      playF (fuel + 1) p = some { p with isPlaying := true }) := by
  constructor
  · intro hlt
    simp [playF, hcur, hnd, hnp, hlt]
  · intro hle
    simp [playF, hcur, hnd, hnp, Int.not_lt.mpr hle]

theorem C1_witness :
    playF 6 samplePastFull = nextF 5 samplePastFull ∧
    playF 6 samplePlayer2 = some { samplePlayer2 with isPlaying := true } :=
  ⟨(C1_play_catchup 5 samplePastFull 0
      { song := songA, next := some 1, prev := none } rfl rfl rfl).1
      (by decide),
   (C1_play_catchup 5 samplePlayer2 0
      { song := songA, next := some 1, prev := none } rfl rfl rfl).2
      (by decide)⟩

/-- C4: with a cursor present, `Next` clears `isPlaying` and `playedTime`,
moves the cursor to the next node — clamping to `tail` when there is none —
and then calls `Play` on the new position; `Prev` is symmetric, moving
backward and clamping to `head`. -/
theorem C4_next_prev_clamp (fuel : Nat) (p : PlayerImpl) (i : Nat)
    (nd : PlayerNode) (hcur : p.current = some i)
    (hnd : p.nodes[i]? = some nd) :
    nextF (fuel + 1) p = playF fuel { p with
      isPlaying := false, playedTime := 0,
      current := match nd.next with | none => p.tail | some j => some j } ∧
    prevF (fuel + 1) p = playF fuel { p with
      isPlaying := false, playedTime := 0,
      current := match nd.prev with | none => p.head | some j => some j } := by
  constructor
  · simp [nextF, hcur, hnd]
  · simp [prevF, hcur, hnd]

theorem C4_witness :
    nextF 6 sampleAtTail = playF 5 { sampleAtTail with
      isPlaying := false, playedTime := 0, current := sampleAtTail.tail } ∧
    prevF 6 samplePlayer2 = playF 5 { samplePlayer2 with
      isPlaying := false, playedTime := 0,
      current := samplePlayer2.head } :=
  ⟨(C4_next_prev_clamp 5 sampleAtTail 1
      { song := songB, next := none, prev := some 0 } rfl rfl).1,
   (C4_next_prev_clamp 5 samplePlayer2 0
      { song := songA, next := some 1, prev := none } rfl rfl).2⟩

/-- C5 counterexample: the track `{Name: "", Duration: 0}` is invalid
(`NewSong` rejects it), yet `NewPlayer` on it succeeds and returns a
controller — construction does not fail on invalid initial tracks, because
`AddSong` performs no validation and never returns an error. -/
theorem C5_counterexample :
    NewSong "" 0 = .error "song name is empty" ∧
    NewPlayer [{ name := "", duration := 0 }] = some (.ok {
        nodes := #[{
          song := { name := "", duration := 0 },
          next := none, prev := none }],
        head := some 0, tail := some 0, current := some 0,
        isPlaying := false, playedTime := 0 }) :=
  ⟨rfl, rfl⟩

/-- C5 (amended): constructing a controller ALWAYS succeeds, whatever the
initial tracks (valid or not): `AddSong` returns `nil` on every path, so the
error-wrapping branch of `NewPlayer` is unreachable. -/
theorem C5_construction_total (songs : List Song) :
    ∃ p, NewPlayer songs = some (.ok p) := by
  obtain ⟨p, h, -, -, -, -, -⟩ :=
    newPlayerLoop_spec songs 0 emptyPlayer (by decide)
  exact ⟨p, h⟩

/-- Every controller `NewPlayer` returns satisfies the chain invariant,
holds exactly the given songs, and starts idle with the cursor on the first
node. -/
theorem newPlayer_spec (songs : List Song) (p : PlayerImpl)
    (hp : NewPlayer songs = some (.ok p)) :
    chainOk p ∧ songsOf p = songs ∧
    p.current = (if songs = [] then none else some 0) ∧
    p.isPlaying = false ∧ p.playedTime = 0 := by
  obtain ⟨q, hq, hcq, hsongs, hcur, hplay, htime⟩ :=
    newPlayerLoop_spec songs 0 emptyPlayer (by decide)
  have hqp : p = q := by
    have h2 := hp.symm.trans hq
    simpa using h2
  subst hqp
  refine ⟨hcq, by simpa [songsOf, emptyPlayer] using hsongs, ?_, hplay, htime⟩
  rw [hcur]
  by_cases h : songs = [] <;> simp [h, emptyPlayer]

/-- `songsOf` and `chainOk` tie the arena size to the song count. -/
theorem songsOf_length (p : PlayerImpl) : (songsOf p).length = p.nodes.size := by
  simp [songsOf]

/-- C8: a controller built from N valid tracks (N ≥ 1) has `head` at the
node of track 0, `tail` at the node of track N−1, the tracks in the given
order, and the cursor equal to `head`. -/
theorem C8_layout (songs : List Song) (p : PlayerImpl) (hne : songs ≠ [])
    (hp : NewPlayer songs = some (.ok p)) :
    p.nodes.size = songs.length ∧
    p.head = some 0 ∧
    p.tail = some (songs.length - 1) ∧
    p.current = p.head ∧
    songsOf p = songs ∧
    (p.nodes[0]?).map (·.song) = songs[0]? ∧
    (p.nodes[songs.length - 1]?).map (·.song) = songs[songs.length - 1]? := by
  obtain ⟨⟨hlinks, hhead, htail⟩, hsongs, hcur, -, -⟩ := newPlayer_spec songs p hp
  have hsize : p.nodes.size = songs.length := by
    rw [← songsOf_length, hsongs]
  have hnz : ¬ p.nodes.size = 0 := by
    rw [hsize]
    simpa using hne
  have hhead0 : p.head = some 0 := by rw [hhead, if_neg hnz]
  have hget : ∀ i : Nat, (p.nodes[i]?).map (·.song) = songs[i]? := by
    intro i
    rw [← hsongs]
    simp [songsOf, Array.getElem?_eq_getElem?_toList, List.getElem?_map]
  refine ⟨hsize, hhead0, ?_, ?_, hsongs, hget 0, hget (songs.length - 1)⟩
  · rw [htail, if_neg hnz, hsize]
  · rw [hcur, if_neg hne, hhead0]

theorem C8_witness :
    samplePlayer2.nodes.size = [songA, songB].length ∧
    samplePlayer2.head = some 0 ∧
    samplePlayer2.tail = some ([songA, songB].length - 1) ∧
    samplePlayer2.current = samplePlayer2.head ∧
    songsOf samplePlayer2 = [songA, songB] ∧
    (samplePlayer2.nodes[0]?).map (·.song) = [songA, songB][0]? ∧
    (samplePlayer2.nodes[[songA, songB].length - 1]?).map (·.song) =
      [songA, songB][[songA, songB].length - 1]? :=
  C8_layout [songA, songB] samplePlayer2 (by decide) rfl

/-- C7: any chain built by a sequence of appends is a valid doubly-linked
list — the head node has no `prev`, the tail node has no `next`, and forward
traversal from `head` equals backward traversal from `tail` reversed — and
each further append preserves every existing link, stores the appended song
in a new node that becomes `tail`, linked back to the previous tail. -/
theorem C7_dll_invariant (songs : List Song) (p : PlayerImpl)
    (hp : NewPlayer songs = some (.ok p)) :
    (∀ i, (h : i < p.nodes.size) → p.head = some i →
      (p.nodes[i]).prev = none) ∧
    (∀ i, (h : i < p.nodes.size) → p.tail = some i →
      (p.nodes[i]).next = none) ∧
    fwd p p.nodes.size p.head = (bwd p p.nodes.size p.tail).reverse ∧
    (∀ s p', AddSong p s = some (.ok p') →
      p'.tail = some p.nodes.size ∧
      (∀ hlt : p.nodes.size < p'.nodes.size,
        (p'.nodes[p.nodes.size]).prev = p.tail ∧
        (p'.nodes[p.nodes.size]).song = s) ∧
      (∀ i, (h : i < p.nodes.size) → (h2 : i < p'.nodes.size) →
        (p'.nodes[i]).prev = (p.nodes[i]).prev ∧
        (p'.nodes[i]).song = (p.nodes[i]).song ∧
        (∀ j, (p.nodes[i]).next = some j →
          (p'.nodes[i]).next = some j))) := by
  obtain ⟨hc, hsongs, -, -, -⟩ := newPlayer_spec songs p hp
  obtain ⟨hlinks, hhead, htail⟩ := hc
  refine ⟨?_, ?_, ?_, ?_⟩
  · intro i h hh
    rw [hhead] at hh
    by_cases h0 : p.nodes.size = 0
    · rw [if_pos h0] at hh
      cases hh
    · rw [if_neg h0] at hh
      have hi : i = 0 := (Option.some.inj hh).symm
      subst hi
      have hz := (hlinks 0 h).1
      simpa using hz
  · intro i h ht2
    rw [htail] at ht2
    by_cases h0 : p.nodes.size = 0
    · rw [if_pos h0] at ht2
      cases ht2
    · rw [if_neg h0] at ht2
      have hi : i = p.nodes.size - 1 := (Option.some.inj ht2).symm
      subst hi
      have hnx := (hlinks (p.nodes.size - 1) h).2
      rw [hnx, if_pos (by omega)]
  · by_cases h0 : p.nodes.size = 0
    · rw [hhead, htail, if_pos h0, if_pos h0, h0]
      rfl
    · rw [hhead, htail, if_neg h0, if_neg h0]
      rw [fwd_eq p ⟨hlinks, hhead, htail⟩ p.nodes.size 0 (by omega) (by omega)]
      rw [bwd_eq p ⟨hlinks, hhead, htail⟩ p.nodes.size (p.nodes.size - 1)
        (by omega) (by omega)]
      have hts : p.nodes.size - 1 + 1 = p.nodes.size := by omega
      rw [hts, List.reverse_reverse, List.drop_zero, ← songsOf_length,
        List.take_length]
  · intro s p' hadd
    obtain ⟨p2, heq, hc2, -, hsz2, -, -, htail2, hnew, hpres, -, -⟩ :=
      addSongCore_spec p s ⟨hlinks, hhead, htail⟩
    have hp2 : p' = p2 := by
      have h3 : AddSong p s = some (.ok p2) := by
        simp [AddSong, heq]
      rw [h3] at hadd
      simpa using hadd.symm
    subst hp2
    obtain ⟨hlinks2, -, -⟩ := hc2
    refine ⟨htail2, ?_, ?_⟩
    · intro hlt
      refine ⟨?_, hnew hlt⟩
      have hn2 := (hlinks2 p.nodes.size hlt).1
      rw [hn2, htail]
    · intro i h h2
      refine ⟨?_, hpres i h h2, ?_⟩
      · rw [(hlinks2 i h2).1, (hlinks i h).1]
      · intro j hj
        rw [(hlinks i h).2] at hj
        by_cases hend : i + 1 = p.nodes.size
        · rw [if_pos hend] at hj
          cases hj
        · rw [if_neg hend] at hj
          have hj2 : j = i + 1 := (Option.some.inj hj).symm
          subst hj2
          rw [(hlinks2 i h2).2, if_neg (by omega)]

theorem C7_witness :
    (∀ i, (h : i < samplePlayer2.nodes.size) → samplePlayer2.head = some i →
      (samplePlayer2.nodes[i]).prev = none) ∧
    (∀ i, (h : i < samplePlayer2.nodes.size) → samplePlayer2.tail = some i →
      (samplePlayer2.nodes[i]).next = none) ∧
    fwd samplePlayer2 samplePlayer2.nodes.size samplePlayer2.head =
      (bwd samplePlayer2 samplePlayer2.nodes.size samplePlayer2.tail).reverse ∧
    (∀ s p', AddSong samplePlayer2 s = some (.ok p') →
      p'.tail = some samplePlayer2.nodes.size ∧
      (∀ hlt : samplePlayer2.nodes.size < p'.nodes.size,
        (p'.nodes[samplePlayer2.nodes.size]).prev = samplePlayer2.tail ∧
        (p'.nodes[samplePlayer2.nodes.size]).song = s) ∧
      (∀ i, (h : i < samplePlayer2.nodes.size) → (h2 : i < p'.nodes.size) →
        (p'.nodes[i]).prev = (samplePlayer2.nodes[i]).prev ∧
        (p'.nodes[i]).song = (samplePlayer2.nodes[i]).song ∧
        (∀ j, (samplePlayer2.nodes[i]).next = some j →
          (p'.nodes[i]).next = some j))) :=
  C7_dll_invariant [songA, songB] samplePlayer2 rfl

end Player
